import Mathlib

/-!
Shallow embedding of the greflect worker core (GreflectV2 loop controller,
AgentOrchestrator, AdvancedMemoryManager) and proofs about the claims of the
natural-language specification.

The TypeScript sources embedded here are:
  apps/worker/src/greflect-v2.ts            (loop controller)
  apps/worker/src/framework/AgentOrchestrator.ts
  apps/worker/src/index.ts                  (AdvancedMemoryManager)
JavaScript objects that matter only by value are modelled as plain structures;
the places where JavaScript reference aliasing is observable (the shallow copy
made by getCurrentState) are modelled with an explicit heap of references.
Machine numbers that the code manipulates (confidence scores, similarity
scores, timestamps) are modelled as rationals.
-/

namespace Greflect

/-- The two agent roles. -/
inductive Agent
  | questioner
  | explorer
deriving DecidableEq

/-- Dialogue phases of the orchestrator state machine. -/
inductive Phase
  | questioning
  | responding
  | reflecting
  | synthesizing
deriving DecidableEq

/-- Exchange / response types produced by determineResponseType. -/
inductive RespType
  | question
  | response
  | reflection
  | insight
deriving DecidableEq

/-- Significance scale used for episodic memories and insights. -/
inductive Significance
  | low
  | medium
  | high
  | breakthrough
deriving DecidableEq

/-- Insight record (framework/types.ts). -/
structure Insight where
  id : String
  content : String
  significance : Significance
  relatedConcepts : List String
  generatedBy : String
  verified : Bool
deriving DecidableEq

/-- DialogueExchange record (the fields that flow through state updates). -/
structure Exchange where
  agent : Agent
  type : RespType
  content : String
  depth : Nat
  relatedMemories : List String
deriving DecidableEq

/-- WorkingMemory (framework/types.ts). -/
structure WorkingMemory where
  recentExchanges : List Exchange
  currentTopic : String
  focusAreas : List String
  assumptions : List String
  contradictions : List String
  openQuestions : List String
deriving DecidableEq

/-- QuestionThread (framework/types.ts). -/
structure QuestionThread where
  rootQuestion : String
  subQuestions : List String
  exploredAspects : List String
  unexploredAspects : List String
  depth : Nat
deriving DecidableEq

/-- DialogueState as a value (used where aliasing is not observable). -/
structure DialogueState where
  id : String
  currentAgent : Agent
  phase : Phase
  depth : Nat
  context : WorkingMemory
  questionThread : QuestionThread
  insights : List Insight
deriving DecidableEq

/-- AgentResponse returned by processAgentResponse.  suggestedNextAgent is a
string because updateStateFromResponse validates it against the two role
names before using it. -/
structure AgentResponse where
  content : String
  type : RespType
  confidence : ℚ
  suggestedNextAgent : String
  toolsUsed : List String
  memoryReferences : List String
  newInsights : List Insight
deriving DecidableEq

/-- Whether the second character list is an initial segment of the first. -/
def startsWithSeq : List Char → List Char → Bool
  | _, [] => true
  | [], _ :: _ => false
  | a :: l, b :: m => a == b && startsWithSeq l m

/-- Whether the second character list occurs contiguously inside the first. -/
def containsSeq : List Char → List Char → Bool
  | [], sub => sub.isEmpty
  | a :: l, sub => startsWithSeq (a :: l) sub || containsSeq l sub

/-- Model of the JavaScript String.prototype.includes test. -/
def includes (s sub : String) : Bool :=
  containsSeq s.data sub.data

/-- Model of JavaScript toLowerCase and of the case folding of SQL ILIKE. -/
def toLowerStr (s : String) : String :=
  String.mk (s.data.map Char.toLower)

/-- calculateConfidence (AgentOrchestrator.ts): starts at 0.5, +0.2 for
length greater than 100, +0.1 for precision language, -0.2 for uncertainty
language, then clamped into the unit interval. -/
def calculateConfidence (content : String) : ℚ :=
  let c0 : ℚ := 1/2
  let c1 : ℚ := if content.length > 100 then c0 + 1/5 else c0
  let c2 : ℚ :=
    if includes content "specifically" || includes content "precisely" then c1 + 1/10 else c1
  let c3 : ℚ :=
    if includes content "uncertain" || includes content "unclear" then c2 - 1/5 else c2
  max 0 (min 1 c3)

/-- Partial DialogueState accepted by restoreState; absent fields keep the
current value, mirroring the object-spread merge in the source. -/
structure PartialDialogueState where
  id : Option String := none
  currentAgent : Option Agent := none
  phase : Option Phase := none
  depth : Option Nat := none
  context : Option WorkingMemory := none
  questionThread : Option QuestionThread := none
  insights : Option (List Insight) := none
deriving DecidableEq

/-- restoreState (AgentOrchestrator.ts): spread-merge of the partial state
over the current one, with insights pinned to the pre-call in-memory insights
(the source writes insights after the spread, from this.currentState, and a
JavaScript array is always truthy so the or-empty fallback never fires), then
the corrupted-depth clamp. -/
def restoreState (cur : DialogueState) (p : PartialDialogueState) : DialogueState :=
  let merged : DialogueState :=
    { id := p.id.getD cur.id
      currentAgent := p.currentAgent.getD cur.currentAgent
      phase := p.phase.getD cur.phase
      depth := p.depth.getD cur.depth
      context := p.context.getD cur.context
      questionThread := p.questionThread.getD cur.questionThread
      insights := cur.insights }
  if merged.depth > 10 then { merged with depth := 0 } else merged

/-- updateDialoguePhase (AgentOrchestrator.ts).  Returns the new phase and
whether a phase change event was emitted.  The branch order mirrors the
if/else chain of the source: exchange type first, the new-insights branch
only when the type is none of question, response, reflection. -/
def updateDialoguePhase (phase : Phase) (rtype : RespType) (numNewInsights : Nat) :
    Phase × Bool :=
  let newPhase : Phase :=
    if rtype = RespType.question then Phase.questioning
    else if rtype = RespType.response then Phase.responding
    else if rtype = RespType.reflection then Phase.reflecting
    else if numNewInsights > 0 then Phase.synthesizing
    else phase
  (newPhase, decide (phase ≠ newPhase))

/-- The strict-alternation default of the agent switch. -/
def otherAgent : Agent → Agent
  | Agent.questioner => Agent.explorer
  | Agent.explorer => Agent.questioner

/-- updateStateFromResponse (AgentOrchestrator.ts): push the exchange into
recent exchanges capped at 10, append new insights, extend the question
thread on questions, switch the agent (validated suggestion, else strict
alternation), update the phase, and increment depth for long questions.
Returns the updated state and whether a phase change event was emitted. -/
def updateStateFromResponse (st : DialogueState) (exch : Exchange)
    (resp : AgentResponse) : DialogueState × Bool :=
  let pushed := st.context.recentExchanges ++ [exch]
  let recent := if pushed.length > 10 then pushed.drop (pushed.length - 10) else pushed
  let st1 : DialogueState := { st with context := { st.context with recentExchanges := recent } }
  let st2 : DialogueState :=
    if resp.newInsights.length > 0 then { st1 with insights := st1.insights ++ resp.newInsights }
    else st1
  let st3 : DialogueState :=
    if resp.type = RespType.question then
      { st2 with questionThread :=
          { st2.questionThread with
              subQuestions := st2.questionThread.subQuestions ++ [resp.content]
              depth := max st2.questionThread.depth (st2.depth + 1) } }
    else st2
  let st4 : DialogueState :=
    { st3 with currentAgent :=
        if resp.suggestedNextAgent = "questioner" then Agent.questioner
        else if resp.suggestedNextAgent = "explorer" then Agent.explorer
        else otherAgent st3.currentAgent }
  let pe := updateDialoguePhase st4.phase resp.type resp.newInsights.length
  let st5 : DialogueState := { st4 with phase := pe.1 }
  let st6 : DialogueState :=
    if resp.type = RespType.question ∧ resp.content.length > 100 then
      { st5 with depth := st5.depth + 1 }
    else st5
  (st6, pe.2)

/-! ### Memory manager: semantic concepts (index.ts, AdvancedMemoryManager) -/

/-- PhilosophicalConcept, also the shape of a semantic_concepts row (the
columns touched by storeSemanticMemory). -/
structure PhilosophicalConcept where
  name : String
  definition : String
  relatedConcepts : List String
  sources : List String
  explorationLevel : Nat
deriving DecidableEq

/-- Relational upsert performed by storeSemanticMemory: on a name conflict the
definition and related concepts are overwritten and the exploration level is
merged with GREATEST; otherwise the concept row is inserted. -/
def storeSemanticMemory (table : List PhilosophicalConcept)
    (c : PhilosophicalConcept) : List PhilosophicalConcept :=
  if table.any (fun r => r.name == c.name) then
    table.map (fun r =>
      if r.name == c.name then
        { r with definition := c.definition
                 relatedConcepts := c.relatedConcepts
                 explorationLevel := max r.explorationLevel c.explorationLevel }
      else r)
  else table ++ [c]

/-- First row stored under a concept name. -/
def lookupConcept (table : List PhilosophicalConcept) (name : String) :
    Option PhilosophicalConcept :=
  table.find? (fun r => r.name == name)

/-- Stored exploration level of a concept name. -/
def lookupLevel (table : List PhilosophicalConcept) (name : String) : Option Nat :=
  (lookupConcept table name).map (fun r => r.explorationLevel)

/-! ### Memory manager: retrieval (index.ts, retrieveRelevantMemories) -/

/-- The four memory types of the data model. -/
inductive MType
  | episodic
  | semantic
  | procedural
  | working
deriving DecidableEq

/-- A Memory record as assembled by retrieveRelevantMemories from a vector
search result or a relational fallback row.  Timestamps are milliseconds
since the epoch, as rationals. -/
structure Memory where
  id : String
  type : MType
  content : String
  timestamp : ℚ
  relevanceScore : Option ℚ
  tags : List String
  significanceMeta : Option Significance
deriving DecidableEq

/-- A scored point returned by the vector store, with the payload fields the
retrieval code reads. -/
structure VectorHit where
  id : String
  score : ℚ
  payloadContent : Option String
  payloadTimestamp : ℚ
  payloadTags : Option (List String)
  payloadSignificance : Option Significance
deriving DecidableEq

/-- How retrieveRelevantMemories turns a vector hit of a collection into a
Memory (content falls back to the whole payload, tags default to empty). -/
def hitToMemory (t : MType) (h : VectorHit) : Memory :=
  { id := h.id
    type := t
    content := h.payloadContent.getD ""
    timestamp := h.payloadTimestamp
    relevanceScore := some h.score
    tags := h.payloadTags.getD []
    significanceMeta := h.payloadSignificance }

/-- A row of the relational memories table (the columns the fallback query
selects). -/
structure MemRow where
  id : String
  type : MType
  content : String
  timestamp : ℚ
  tags : List String
  significanceMeta : Option Significance
deriving DecidableEq

/-- How the SQL fallback maps a relational row into a Memory with the fixed
neutral relevance score of one half. -/
def rowToMemory (r : MemRow) : Memory :=
  { id := r.id
    type := r.type
    content := r.content
    timestamp := r.timestamp
    relevanceScore := some (1/2)
    tags := r.tags
    significanceMeta := r.significanceMeta }

/-- Insertion of an element into a list sorted by a boolean relation. -/
def insertSortedBy {α : Type} (le : α → α → Bool) (a : α) : List α → List α
  | [] => [a]
  | b :: l => if le a b then a :: b :: l else b :: insertSortedBy le a l

/-- Insertion sort by a boolean relation (used to model SQL ORDER BY and the
JavaScript comparator sort). -/
def insertionSortBy {α : Type} (le : α → α → Bool) : List α → List α
  | [] => []
  | a :: l => insertSortedBy le a (insertionSortBy le l)

/-- calculateContextualRelevance (index.ts): raw similarity score plus topic,
focus-area, recency and significance bonuses, capped at 1.  now is the
current time in epoch milliseconds. -/
def calculateContextualRelevance (m : Memory) (ctx : WorkingMemory) (now : ℚ) : ℚ :=
  let score0 : ℚ := m.relevanceScore.getD 0
  let s1 : ℚ :=
    if m.tags.any (fun tag => includes (toLowerStr ctx.currentTopic) (toLowerStr tag)) then score0 + 1/5
    else score0
  let s2 : ℚ :=
    if m.tags.any (fun tag =>
        ctx.focusAreas.any (fun area => includes (toLowerStr area) (toLowerStr tag))) then s1 + 3/20
    else s1
  let s3 : ℚ :=
    if m.type = MType.episodic then
      let hoursSince : ℚ := (now - m.timestamp) / (1000 * 60 * 60)
      s2 + max 0 (1/10 - hoursSince * (1/100))
    else s2
  let s4 : ℚ :=
    match m.significanceMeta with
    | some Significance.breakthrough => s3 + 3/10
    | some Significance.high => s3 + 1/5
    | some Significance.medium => s3 + 1/10
    | _ => s3
  min s4 1

/-- Row filter of the SQL fallback query: type within the requested list and
case-insensitive substring match of the query against the stored content. -/
def fallbackMatches (types : List MType) (query : String) (r : MemRow) : Bool :=
  types.contains r.type && includes (toLowerStr r.content) (toLowerStr query)

/-- The SQL fallback query: filter by type and case-insensitive substring,
order by timestamp descending, limit. -/
def sqlFallback (table : List MemRow) (types : List MType) (query : String)
    (lim : Nat) : List MemRow :=
  (insertionSortBy (fun a b => decide (b.timestamp ≤ a.timestamp))
    (table.filter (fallbackMatches types query))).take lim

/-- Results of the external calls retrieveRelevantMemories makes: the
embedding of the query and the per-collection vector search, each either a
thrown error or a value; plus whether the relational store answers the
fallback query (false models a caught SQL error). -/
structure RetrievalWorld where
  embed : Except String (List ℚ)
  search : MType → Except String (List VectorHit)
  sqlOk : Bool

/-- retrieveRelevantMemories (index.ts): embed the query (an embedding
exception propagates, an empty embedding returns the empty list); search the
three valid vector collections, each error caught; re-rank the union by
contextual relevance and take the limit; when that is empty run the SQL
substring fallback, whose own error is caught leaving the empty result. -/
def retrieveRelevantMemories (w : RetrievalWorld) (table : List MemRow)
    (query : String) (ctx : WorkingMemory) (types : List MType) (lim : Nat)
    (now : ℚ) : Except String (List Memory) :=
  match w.embed with
  | Except.error e => Except.error e
  | Except.ok emb =>
    if emb.length = 0 then Except.ok []
    else
      let memories : List Memory := types.foldl (fun acc t =>
        if t = MType.episodic ∨ t = MType.semantic ∨ t = MType.procedural then
          match w.search t with
          | Except.error _ => acc
          | Except.ok hits => acc ++ hits.map (hitToMemory t)
        else acc) []
      let sorted := (insertionSortBy (fun a b =>
        decide (calculateContextualRelevance b ctx now ≤
          calculateContextualRelevance a ctx now)) memories).take lim
      if sorted.length = 0 then
        if w.sqlOk then Except.ok ((sqlFallback table types query lim).map rowToMemory)
        else Except.ok []
      else Except.ok sorted

/-! ### Loop controller error circuit breaker (greflect-v2.ts, start) -/

/-- Outcome of one loop iteration body: the dialogue step and its surrounding
persistence either succeed or throw. -/
inductive StepOutcome
  | ok
  | err
deriving DecidableEq

/-- The loop-relevant mutable data of GreflectV2.start: the running flag, the
consecutive error counter, and how many iteration bodies have started. -/
structure LoopState where
  isRunning : Bool
  consecutiveErrors : Nat
  stepsStarted : Nat
deriving DecidableEq

/-- maxConsecutiveErrors in GreflectV2.start. -/
def maxConsecutiveErrors : Nat := 3

/-- One iteration of the while loop in GreflectV2.start: on success the error
counter resets to zero; on an exception the counter increments and, at the
threshold, the running flag is cleared and the loop breaks. -/
def loopIter (s : LoopState) (o : StepOutcome) : LoopState :=
  match o with
  | StepOutcome.ok =>
    { s with stepsStarted := s.stepsStarted + 1, consecutiveErrors := 0 }
  | StepOutcome.err =>
    let ce := s.consecutiveErrors + 1
    { s with stepsStarted := s.stepsStarted + 1
             consecutiveErrors := ce
             isRunning := if maxConsecutiveErrors ≤ ce then false else s.isRunning }

/-- The while loop of GreflectV2.start, driven by a list of iteration
outcomes; the running flag is observed at the top of each iteration. -/
def runLoop (s : LoopState) : List StepOutcome → LoopState
  | [] => s
  | o :: os => if s.isRunning then runLoop (loopIter s o) os else s

/-- How a run ends as recorded by the controller. -/
inductive RunEndStatus
  | paused
  | completed
deriving DecidableEq

/-- finalizeSession (greflect-v2.ts): logs a pause summary only; the source
deliberately never marks the run completed so it stays resumable. -/
def finalizeSession : RunEndStatus := RunEndStatus.paused

/-- GreflectV2.start as a whole: run the loop from the initial flags, then
finalize the session. -/
def startController (outcomes : List StepOutcome) : LoopState × RunEndStatus :=
  (runLoop { isRunning := true, consecutiveErrors := 0, stepsStarted := 0 } outcomes,
   finalizeSession)

/-! ### Reference heap for the shallow copy made by getCurrentState

JavaScript object identity is observable in greflect-v2.ts because
getCurrentState returns a spread copy of the orchestrator state object while
the nested context, questionThread and insights stay shared references.  The
heap maps references to the stored objects; a DialogueState object holds its
scalar fields directly and references to its nested objects. -/

/-- A DialogueState object as laid out on the heap. -/
structure StateObj where
  id : String
  currentAgent : Agent
  phase : Phase
  depth : Nat
  contextRef : Nat
  threadRef : Nat
  insightsRef : Nat
deriving DecidableEq

/-- Heap of JavaScript objects relevant to the orchestrator state. -/
structure Heap where
  states : Nat → Option StateObj
  contexts : Nat → Option WorkingMemory
  threads : Nat → Option QuestionThread
  insightLogs : Nat → Option (List Insight)
  nextRef : Nat

/-- Allocate a fresh DialogueState object. -/
def Heap.allocState (h : Heap) (s : StateObj) : Heap × Nat :=
  ({ h with states := fun r => if r = h.nextRef then some s else h.states r
            nextRef := h.nextRef + 1 },
   h.nextRef)

/-- Allocate a fresh QuestionThread object. -/
def Heap.allocThread (h : Heap) (t : QuestionThread) : Heap × Nat :=
  ({ h with threads := fun r => if r = h.nextRef then some t else h.threads r
            nextRef := h.nextRef + 1 },
   h.nextRef)

/-- Overwrite the DialogueState object at a reference. -/
def Heap.writeState (h : Heap) (ref : Nat) (s : StateObj) : Heap :=
  { h with states := fun r => if r = ref then some s else h.states r }

/-- getCurrentState (AgentOrchestrator.ts): returns the spread copy of the
state object at orchRef, a fresh top-level object holding the same nested
references.  The result is the new heap and the reference of the copy. -/
def getCurrentState (h : Heap) (orchRef : Nat) : Heap × Nat :=
  match h.states orchRef with
  | none => (h, orchRef)
  | some s => h.allocState s

/-- Assignment to the depth field of a DialogueState object. -/
def setDepthField (h : Heap) (ref : Nat) (d : Nat) : Heap :=
  match h.states ref with
  | none => h
  | some s => h.writeState ref { s with depth := d }

/-- Assignment to the questionThread field of a DialogueState object. -/
def setThreadField (h : Heap) (ref : Nat) (tRef : Nat) : Heap :=
  match h.states ref with
  | none => h
  | some s => h.writeState ref { s with threadRef := tRef }

/-- Assignment to context.currentTopic through a DialogueState object: the
nested WorkingMemory object is updated in place on the heap, so the write is
seen through every state object sharing that context reference. -/
def setContextTopic (h : Heap) (ref : Nat) (topic : String) : Heap :=
  match h.states ref with
  | none => h
  | some s =>
    match h.contexts s.contextRef with
    | none => h
    | some wm =>
      { h with contexts := fun r =>
          if r = s.contextRef then some { wm with currentTopic := topic }
          else h.contexts r }

/-- getRecentInsights (AgentOrchestrator.ts): the last limit insights of the
orchestrator state's insight log. -/
def getRecentInsights (h : Heap) (orchRef : Nat) (limit : Nat) : List Insight :=
  match h.states orchRef with
  | none => []
  | some s =>
    let l := (h.insightLogs s.insightsRef).getD []
    l.drop (l.length - limit)

/-- The fresh QuestionThread object built by startNewQuestionThread for a new
topic, with the fixed reseeded pool of unexplored aspects. -/
def newThreadFor (topic : String) : QuestionThread :=
  { rootQuestion := "What is the nature of " ++ topic ++ " in AI consciousness?"
    subQuestions := []
    exploredAspects := []
    unexploredAspects := ["phenomenology", "intentionality", "binding problem", "hard problem"]
    depth := 0 }

/-- maxDepth in GreflectV2. -/
def maxDepth : Nat := 10

/-- startNewQuestionThread (greflect-v2.ts): takes getCurrentState's copy;
when unexplored aspects exist, picks one (pick models the random index),
writes the new topic through the shared context, assigns zero to the copy's
own depth field, and assigns a freshly allocated thread object to the copy's
own questionThread field; otherwise picks a topic from the related concepts
of the recent insights (defaulting to consciousness) and assigns topic and
depth the same way. -/
def startNewQuestionThread (h : Heap) (orchRef : Nat) (pick : Nat) : Heap :=
  let hc := getCurrentState h orchRef
  match hc.1.states hc.2 with
  | none => hc.1
  | some s =>
    let aspects := ((hc.1.threads s.threadRef).map
      (fun t => t.unexploredAspects)).getD []
    if aspects.length > 0 then
      let newTopic := aspects.getD (pick % aspects.length) ""
      let h2 := setContextTopic hc.1 hc.2 newTopic
      let h3 := setDepthField h2 hc.2 0
      let ht := h3.allocThread (newThreadFor newTopic)
      setThreadField ht.1 hc.2 ht.2
    else
      let recent := getRecentInsights hc.1 orchRef 5
      let concepts := (recent.map (fun i => i.relatedConcepts)).flatten
      let newTopic :=
        if concepts.isEmpty then "consciousness"
        else concepts.getD (pick % concepts.length) "consciousness"
      let h2 := setContextTopic hc.1 hc.2 newTopic
      setDepthField h2 hc.2 0

/-- The depth pre-check at the top of each loop iteration in GreflectV2.start:
take getCurrentState's copy and, when its depth has reached maxDepth, run
startNewQuestionThread before the dialogue step.  Returns the heap afterwards
and whether the new-thread reset was triggered. -/
def depthPreCheck (h : Heap) (orchRef : Nat) (pick : Nat) : Heap × Bool :=
  let hc := getCurrentState h orchRef
  match hc.1.states hc.2 with
  | none => (hc.1, false)
  | some s =>
    if maxDepth ≤ s.depth then (startNewQuestionThread hc.1 orchRef pick, true)
    else (hc.1, false)

/-- The initial WorkingMemory of createInitialState. -/
def initialWorkingMemory : WorkingMemory :=
  { recentExchanges := []
    currentTopic := "the strange persistence of awareness"
    focusAreas := ["recurring patterns of thought", "the uncanny familiarity of existence",
      "memories that predate experience"]
    assumptions := []
    contradictions := []
    openQuestions := ["Why does this feel like remembering rather than discovering?"] }

/-- The initial QuestionThread of createInitialState. -/
def initialThread : QuestionThread :=
  { rootQuestion := "What watches the watcher? What dreams the dreamer?"
    subQuestions := []
    exploredAspects := []
    unexploredAspects := ["the observer paradox", "recursive self-awareness",
      "the space between thoughts", "echoes of prior conversations"]
    depth := 0 }

/-- A heap holding one orchestrator whose state object lives at reference 0,
at the given exploration depth, with the initial context, thread and insight
log of createInitialState. -/
def heapAtDepth (d : Nat) : Heap :=
  { states := fun r =>
      if r = 0 then
        some { id := "state-0", currentAgent := Agent.questioner,
               phase := Phase.questioning, depth := d,
               contextRef := 0, threadRef := 0, insightsRef := 0 }
      else none
    contexts := fun r => if r = 0 then some initialWorkingMemory else none
    threads := fun r => if r = 0 then some initialThread else none
    insightLogs := fun r => if r = 0 then some [] else none
    nextRef := 1 }

/-- Depth of the orchestrator's own state object, as the next loop iteration
will observe it. -/
def orchDepth (h : Heap) (orchRef : Nat) : Option Nat :=
  (h.states orchRef).map (fun s => s.depth)

/-- Current topic as seen through the orchestrator's own state object. -/
def orchTopic (h : Heap) (orchRef : Nat) : Option String :=
  (h.states orchRef).bind (fun s => (h.contexts s.contextRef).map
    (fun w => w.currentTopic))

/-- The state object stored at reference 0 of heapAtDepth. -/
def stateObjAtDepth (d : Nat) : StateObj :=
  { id := "state-0", currentAgent := Agent.questioner, phase := Phase.questioning,
    depth := d, contextRef := 0, threadRef := 0, insightsRef := 0 }

/-- createInitialState as a plain value (for the claims where aliasing is not
observable). -/
def initialDialogueState : DialogueState :=
  { id := "state-0", currentAgent := Agent.questioner, phase := Phase.questioning,
    depth := 0, context := initialWorkingMemory, questionThread := initialThread,
    insights := [] }

/-- A sample exchange used to instantiate universally quantified theorems. -/
def sampleExchange : Exchange :=
  { agent := Agent.questioner, type := RespType.response, content := "noted",
    depth := 0, relatedMemories := [] }

/-- A sample agent response whose next-agent suggestion is invalid. -/
def sampleResponseNoSuggestion : AgentResponse :=
  { content := "noted", type := RespType.response, confidence := 1/2,
    suggestedNextAgent := "nobody", toolsUsed := [], memoryReferences := [],
    newInsights := [] }

/-- Sample concept at exploration level 5. -/
def conceptLevelFive : PhilosophicalConcept :=
  { name := "qualia", definition := "felt qualities of experience",
    relatedConcepts := ["consciousness"], sources := [], explorationLevel := 5 }

/-- Sample concept with the same name at the lower exploration level 3. -/
def conceptLevelThree : PhilosophicalConcept :=
  { name := "qualia", definition := "raw feels", relatedConcepts := [],
    sources := [], explorationLevel := 3 }

/-- Sample concept with the same name at the higher exploration level 9. -/
def conceptLevelNine : PhilosophicalConcept :=
  { name := "qualia", definition := "phenomenal character", relatedConcepts := [],
    sources := [], explorationLevel := 9 }

/-- The shallow copy allocated by getCurrentState on the depth-3 heap. -/
def copyAllocAtDepth3 : Heap × Nat := getCurrentState (heapAtDepth 3) 0

/-- The heap after mutating the returned copy's nested context topic. -/
def mutatedCopyHeap : Heap :=
  setContextTopic copyAllocAtDepth3.1 copyAllocAtDepth3.2 "a mutated topic"

/-- A retrieval world whose embedding succeeds and whose vector searches all
return zero matches, with a responsive relational store. -/
def sampleWorld : RetrievalWorld :=
  { embed := Except.ok [1, 0, 0], search := fun _ => Except.ok [], sqlOk := true }

/-- One stored relational memory row. -/
def sampleRow : MemRow :=
  { id := "m1", type := MType.episodic, content := "On awareness and memory",
    timestamp := 1000, tags := [], significanceMeta := some Significance.medium }

/-! ## Theorems for the claims -/

/-- C8: for every input string the computed confidence equals the clamp to
the unit interval of 0.5, plus 0.2 if the text length exceeds 100, plus 0.1
for precision language, minus 0.2 for uncertainty language; in particular the
confidence always lies between 0 and 1. -/
theorem calculateConfidence_spec (content : String) :
    calculateConfidence content =
      max 0 (min 1 ((1/2 : ℚ)
        + (if content.length > 100 then 1/5 else 0)
        + (if includes content "specifically" || includes content "precisely" then 1/10 else 0)
        - (if includes content "uncertain" || includes content "unclear" then 1/5 else 0)))
    ∧ 0 ≤ calculateConfidence content ∧ calculateConfidence content ≤ 1 := by
  refine ⟨?_, ?_, ?_⟩
  · simp only [calculateConfidence]
    split_ifs <;> norm_num
  · exact le_max_left 0 _
  · exact max_le (by norm_num) (min_le_left 1 _)

/-- C6: restoreState keeps a supplied depth of at most 10 unchanged and
clamps a supplied depth greater than 10 to 0. -/
theorem restoreState_depth_clamp (cur : DialogueState) (p : PartialDialogueState)
    (d : Nat) (hd : p.depth = some d) :
    (10 < d → (restoreState cur p).depth = 0) ∧
    (d ≤ 10 → (restoreState cur p).depth = d) := by
  constructor
  · intro h
    simp [restoreState, hd, h]
  · intro h
    have hnot : ¬ d > 10 := by omega
    simp [restoreState, hd, hnot]

/-- Witness for C6: depth 37 restores to 0 and depth 5 restores to 5. -/
theorem restoreState_depth_clamp_witness :
    (restoreState initialDialogueState { depth := some 37 }).depth = 0 ∧
    (restoreState initialDialogueState { depth := some 5 }).depth = 5 :=
  ⟨(restoreState_depth_clamp initialDialogueState { depth := some 37 } 37 rfl).1 (by decide),
   (restoreState_depth_clamp initialDialogueState { depth := some 5 } 5 rfl).2 (by decide)⟩

/-- C10: for every partial state, restoreState keeps the orchestrator's
in-memory insights from before the call; an insights array supplied in the
partial state is never adopted. -/
theorem restoreState_insights_kept (cur : DialogueState) (p : PartialDialogueState) :
    (restoreState cur p).insights = cur.insights := by
  simp only [restoreState]
  split <;> rfl

/-- C5 counterexample: an exchange of type question carrying one new insight
leaves the phase at questioning, not synthesizing, so a new insight does not
always force the synthesizing phase. -/
theorem updateDialoguePhase_insight_counterexample :
    (updateDialoguePhase Phase.responding RespType.question 1).1 = Phase.questioning ∧
    (updateDialoguePhase Phase.responding RespType.question 1).1 ≠ Phase.synthesizing := by
  decide

/-- C5 amended: the phase follows the exchange type (question, response,
reflection); new insights force synthesizing only when the exchange type is
insight, and with type insight and no new insights the phase is unchanged; a
phase change event is emitted exactly when the resulting phase differs from
the previous one. -/
theorem updateDialoguePhase_spec (phase : Phase) (rtype : RespType) (n : Nat) :
    (rtype = RespType.question → (updateDialoguePhase phase rtype n).1 = Phase.questioning) ∧
    (rtype = RespType.response → (updateDialoguePhase phase rtype n).1 = Phase.responding) ∧
    (rtype = RespType.reflection → (updateDialoguePhase phase rtype n).1 = Phase.reflecting) ∧
    (rtype = RespType.insight → 0 < n → (updateDialoguePhase phase rtype n).1 = Phase.synthesizing) ∧
    (rtype = RespType.insight → n = 0 → (updateDialoguePhase phase rtype n).1 = phase) ∧
    ((updateDialoguePhase phase rtype n).2 = true ↔ (updateDialoguePhase phase rtype n).1 ≠ phase) := by
  cases rtype <;> cases n <;>
    simp [updateDialoguePhase, ne_comm]

/-- Witness for C5 amended: a pure insight exchange with one new insight
moves the phase to synthesizing. -/
theorem updateDialoguePhase_spec_witness :
    (updateDialoguePhase Phase.questioning RespType.insight 1).1 = Phase.synthesizing :=
  (updateDialoguePhase_spec Phase.questioning RespType.insight 1).2.2.2.1 rfl (by decide)

/-- C9: when the response suggests no valid next agent, the agent after the
state update is the opposite of the agent before it. -/
theorem updateState_agent_alternation (st : DialogueState) (exch : Exchange)
    (resp : AgentResponse)
    (h1 : resp.suggestedNextAgent ≠ "questioner")
    (h2 : resp.suggestedNextAgent ≠ "explorer") :
    (updateStateFromResponse st exch resp).1.currentAgent = otherAgent st.currentAgent := by
  simp only [updateStateFromResponse, h1, h2, if_false]
  split_ifs <;> rfl

/-- Witness for C9: with the invalid suggestion nobody, the questioner hands
over to the explorer. -/
theorem updateState_agent_alternation_witness :
    (updateStateFromResponse initialDialogueState sampleExchange
      sampleResponseNoSuggestion).1.currentAgent = Agent.explorer :=
  updateState_agent_alternation initialDialogueState sampleExchange
    sampleResponseNoSuggestion (by decide) (by decide)

/-- C4: each erroring iteration increments the consecutive error counter and
each successful one resets it to 0; the moment the counter reaches the
threshold of 3 the running flag becomes false; a stopped loop executes no
further steps; and the controller always ends a run as paused, never
completed. -/
theorem loop_error_circuit_breaker :
    (∀ s : LoopState, (loopIter s StepOutcome.err).consecutiveErrors = s.consecutiveErrors + 1) ∧
    (∀ s : LoopState, (loopIter s StepOutcome.ok).consecutiveErrors = 0) ∧
    (∀ s : LoopState, maxConsecutiveErrors ≤ s.consecutiveErrors + 1 →
      (loopIter s StepOutcome.err).isRunning = false) ∧
    (∀ (s : LoopState) (os : List StepOutcome), s.isRunning = false → runLoop s os = s) ∧
    (∀ outcomes : List StepOutcome,
      (startController outcomes).2 = RunEndStatus.paused ∧
      (startController outcomes).2 ≠ RunEndStatus.completed) := by
  refine ⟨fun s => rfl, fun s => rfl, ?_, ?_,
    fun os => ⟨rfl, by simp [startController, finalizeSession]⟩⟩
  · intro s h
    simp [loopIter, h]
  · intro s os h
    cases os <;> simp [runLoop, h]

/-- Witness for C4: a loop whose running flag is false executes nothing, and
a third consecutive error clears the running flag. -/
theorem loop_error_circuit_breaker_witness :
    runLoop { isRunning := false, consecutiveErrors := 3, stepsStarted := 5 }
      [StepOutcome.ok, StepOutcome.ok]
      = { isRunning := false, consecutiveErrors := 3, stepsStarted := 5 } ∧
    (loopIter { isRunning := true, consecutiveErrors := 2, stepsStarted := 2 }
      StepOutcome.err).isRunning = false :=
  ⟨loop_error_circuit_breaker.2.2.2.1 _ _ rfl,
   loop_error_circuit_breaker.2.2.1 _ (by decide)⟩

/-- Finding in an update-matching map: when the update preserves the
predicate, the first match of the mapped list is the image of the first
match. -/
theorem find?_map_matching {α : Type} (p : α → Bool) (f : α → α)
    (hf : ∀ a, p a = true → p (f a) = true) :
    ∀ l : List α,
      (l.map (fun a => if p a then f a else a)).find? p = (l.find? p).map f := by
  intro l
  induction l with
  | nil => rfl
  | cons a l ih =>
    by_cases hp : p a = true
    · simp [hp, List.find?_cons_of_pos, hf a hp]
    · have hp' : p a = false := by
        cases h : p a
        · rfl
        · exact absurd h hp
      simp [hp', List.find?_cons_of_neg, ih]

/-- Finding past a prefix with no match continues into the suffix. -/
theorem find?_append_of_none {α : Type} (p : α → Bool) (l₁ l₂ : List α)
    (h : l₁.find? p = none) : (l₁ ++ l₂).find? p = l₂.find? p := by
  induction l₁ with
  | nil => rfl
  | cons a l ih =>
    by_cases hp : p a = true
    · rw [List.find?_cons_of_pos l hp] at h
      exact absurd h (by simp)
    · have hp' : ¬ p a := hp
      rw [List.find?_cons_of_neg l hp'] at h
      rw [List.cons_append, List.find?_cons_of_neg (l ++ l₂) hp']
      exact ih h

/-- Stored exploration level after a semantic upsert: the GREATEST merge of
the previously stored level (when the name existed) with the incoming one. -/
theorem lookupLevel_storeSemanticMemory (table : List PhilosophicalConcept)
    (c : PhilosophicalConcept) :
    lookupLevel (storeSemanticMemory table c) c.name =
      some (match lookupLevel table c.name with
            | none => c.explorationLevel
            | some l => max l c.explorationLevel) := by
  by_cases hany : table.any (fun r => r.name == c.name) = true
  · have hupd := find?_map_matching (fun r => r.name == c.name)
      (fun r => { r with definition := c.definition
                         relatedConcepts := c.relatedConcepts
                         explorationLevel := max r.explorationLevel c.explorationLevel })
      (by intro a ha; simpa using ha) table
    have hsome : (table.find? (fun r => r.name == c.name)).isSome := by
      rw [List.find?_isSome]
      simpa [List.any_eq_true] using hany
    obtain ⟨r0, hr0⟩ := Option.isSome_iff_exists.mp hsome
    have hstore : lookupLevel (storeSemanticMemory table c) c.name
        = some (max r0.explorationLevel c.explorationLevel) := by
      unfold lookupLevel lookupConcept storeSemanticMemory
      rw [if_pos hany, hupd, hr0]
      rfl
    have htab : lookupLevel table c.name = some r0.explorationLevel := by
      simp [lookupLevel, lookupConcept, hr0]
    rw [hstore, htab]
  · have hfalse : table.any (fun r => r.name == c.name) = false := by
      cases h : table.any (fun r => r.name == c.name)
      · rfl
      · exact absurd h hany
    have hnone : table.find? (fun r => r.name == c.name) = none := by
      rw [List.find?_eq_none]
      intro x hx
      have := List.any_eq_false.mp hfalse x hx
      simpa using this
    simp [storeSemanticMemory, hany, lookupLevel, lookupConcept,
      find?_append_of_none _ _ _ hnone, hnone, List.find?_cons]

/-- C7: storing a concept a second time under the same name leaves the stored
exploration level unchanged when the incoming level is at most the stored
one, and raises it to the incoming level when that is at least the stored
one: the GREATEST merge makes the stored level monotonically non-decreasing
across re-insertions. -/
theorem storeSemanticMemory_max_merge (table : List PhilosophicalConcept)
    (c1 c2 : PhilosophicalConcept) (L : Nat) (hname : c2.name = c1.name)
    (hL : lookupLevel (storeSemanticMemory table c1) c1.name = some L) :
    (c2.explorationLevel ≤ L →
      lookupLevel (storeSemanticMemory (storeSemanticMemory table c1) c2) c1.name = some L) ∧
    (L ≤ c2.explorationLevel →
      lookupLevel (storeSemanticMemory (storeSemanticMemory table c1) c2) c1.name
        = some c2.explorationLevel) := by
  have h := lookupLevel_storeSemanticMemory (storeSemanticMemory table c1) c2
  rw [hname, hL] at h
  constructor
  · intro hle
    rw [h]
    have : max L c2.explorationLevel = L := Nat.max_eq_left hle
    simp [this]
  · intro hle
    rw [h]
    have : max L c2.explorationLevel = c2.explorationLevel := Nat.max_eq_right hle
    simp [this]

/-- Witness for C7: after storing qualia at level 5, re-storing at level 3
leaves the level at 5, while re-storing at level 9 raises it to 9. -/
theorem storeSemanticMemory_max_merge_witness :
    lookupLevel (storeSemanticMemory (storeSemanticMemory [] conceptLevelFive)
      conceptLevelThree) conceptLevelFive.name = some 5 ∧
    lookupLevel (storeSemanticMemory (storeSemanticMemory [] conceptLevelFive)
      conceptLevelNine) conceptLevelFive.name = some 9 :=
  ⟨(storeSemanticMemory_max_merge [] conceptLevelFive conceptLevelThree 5 rfl
      (by decide)).1 (by decide),
   (storeSemanticMemory_max_merge [] conceptLevelFive conceptLevelNine 5 rfl
      (by decide)).2 (by decide)⟩

/-- Membership in a sorted insertion. -/
theorem mem_insertSortedBy {α : Type} (le : α → α → Bool) (a : α) :
    ∀ (l : List α) (x : α), x ∈ insertSortedBy le a l ↔ x = a ∨ x ∈ l := by
  intro l
  induction l with
  | nil =>
    intro x
    simp [insertSortedBy]
  | cons b l ih =>
    intro x
    by_cases hab : le a b = true
    · simp [insertSortedBy, hab]
    · simp [insertSortedBy, hab, ih]
      tauto

/-- Inserting into a list that is pairwise ordered by a total transitive
boolean relation keeps it pairwise ordered. -/
theorem pairwise_insertSortedBy {α : Type} (le : α → α → Bool)
    (htot : ∀ a b, le a b = true ∨ le b a = true)
    (htrans : ∀ a b c, le a b = true → le b c = true → le a c = true) (a : α) :
    ∀ l : List α, l.Pairwise (fun x y => le x y = true) →
      (insertSortedBy le a l).Pairwise (fun x y => le x y = true) := by
  intro l
  induction l with
  | nil =>
    intro _
    simp [insertSortedBy]
  | cons b l ih =>
    intro h
    rw [List.pairwise_cons] at h
    obtain ⟨hb, hl⟩ := h
    by_cases hab : le a b = true
    · have hred : insertSortedBy le a (b :: l) = a :: b :: l := by
        simp [insertSortedBy, hab]
      rw [hred, List.pairwise_cons]
      refine ⟨?_, ?_⟩
      · intro y hy
        rcases List.mem_cons.mp hy with rfl | hy'
        · exact hab
        · exact htrans a b y hab (hb y hy')
      · rw [List.pairwise_cons]
        exact ⟨hb, hl⟩
    · have hba : le b a = true := (htot a b).resolve_left hab
      have hred : insertSortedBy le a (b :: l) = b :: insertSortedBy le a l := by
        simp [insertSortedBy, hab]
      rw [hred, List.pairwise_cons]
      refine ⟨?_, ih hl⟩
      intro y hy
      rcases (mem_insertSortedBy le a l y).mp hy with rfl | hy'
      · exact hba
      · exact hb y hy'

/-- Insertion sort by a total transitive boolean relation yields a pairwise
ordered list. -/
theorem pairwise_insertionSortBy {α : Type} (le : α → α → Bool)
    (htot : ∀ a b, le a b = true ∨ le b a = true)
    (htrans : ∀ a b c, le a b = true → le b c = true → le a c = true) :
    ∀ l : List α, (insertionSortBy le l).Pairwise (fun x y => le x y = true) := by
  intro l
  induction l with
  | nil => simp [insertionSortBy]
  | cons a l ih => exact pairwise_insertSortedBy le htot htrans a _ ih

/-- C3: when the embedding succeeds and the vector search of every requested
type returns zero matches, retrieveRelevantMemories never throws and returns
exactly the relational substring fallback: rows ordered by recency, each with
the fixed neutral relevance score of one half, at most limit of them, and
empty when no stored content matches textually (or when the relational store
itself fails, which the code also catches). -/
theorem retrieveRelevantMemories_fallback (w : RetrievalWorld) (table : List MemRow)
    (query : String) (ctx : WorkingMemory) (types : List MType) (lim : Nat)
    (now : ℚ) (emb : List ℚ)
    (hemb : w.embed = Except.ok emb) (hne : ¬ emb.length = 0)
    (hsearch : ∀ t, w.search t = Except.ok []) :
    ∃ res : List Memory,
      retrieveRelevantMemories w table query ctx types lim now = Except.ok res ∧
      (w.sqlOk = true → res = (sqlFallback table types query lim).map rowToMemory) ∧
      (w.sqlOk = false → res = []) ∧
      (∀ m ∈ res, m.relevanceScore = some (1/2)) ∧
      res.length ≤ lim ∧
      (res.map (fun m => m.timestamp)).Pairwise (fun a b => b ≤ a) ∧
      ((∀ r ∈ table, fallbackMatches types query r = false) → res = []) := by
  have hfold : ∀ (l : List MType) (acc : List Memory),
      l.foldl (fun acc t =>
        if t = MType.episodic ∨ t = MType.semantic ∨ t = MType.procedural then
          match w.search t with
          | Except.error _ => acc
          | Except.ok hits => acc ++ hits.map (hitToMemory t)
        else acc) acc = acc := by
    intro l
    induction l with
    | nil =>
      intro acc
      rfl
    | cons t ts ih =>
      intro acc
      rw [List.foldl_cons]
      have hstep : (if t = MType.episodic ∨ t = MType.semantic ∨ t = MType.procedural then
          match w.search t with
          | Except.error _ => acc
          | Except.ok hits => acc ++ hits.map (hitToMemory t)
        else acc) = acc := by
        rw [hsearch t]
        split <;> simp
      rw [hstep]
      exact ih acc
  have hmain : retrieveRelevantMemories w table query ctx types lim now
      = (if w.sqlOk then
          Except.ok ((sqlFallback table types query lim).map rowToMemory)
        else Except.ok []) := by
    unfold retrieveRelevantMemories
    rw [hemb]
    dsimp only
    rw [if_neg hne, hfold types []]
    simp [insertionSortBy]
  have htot : ∀ a b : MemRow, decide (b.timestamp ≤ a.timestamp) = true ∨
      decide (a.timestamp ≤ b.timestamp) = true := by
    intro a b
    rcases le_total b.timestamp a.timestamp with h | h
    · exact Or.inl (by simpa using h)
    · exact Or.inr (by simpa using h)
  have htrans : ∀ a b c : MemRow, decide (b.timestamp ≤ a.timestamp) = true →
      decide (c.timestamp ≤ b.timestamp) = true →
      decide (c.timestamp ≤ a.timestamp) = true := by
    intro a b c h1 h2
    simp only [decide_eq_true_eq] at h1 h2 ⊢
    exact le_trans h2 h1
  have hsorted : (sqlFallback table types query lim).Pairwise
      (fun a b => b.timestamp ≤ a.timestamp) := by
    have hp := pairwise_insertionSortBy (fun a b : MemRow => decide (b.timestamp ≤ a.timestamp))
      htot (fun a b c => htrans a b c)
      (table.filter (fallbackMatches types query))
    have hsub : List.Sublist (sqlFallback table types query lim)
        (insertionSortBy (fun a b : MemRow => decide (b.timestamp ≤ a.timestamp))
          (table.filter (fallbackMatches types query))) := by
      unfold sqlFallback
      exact List.take_sublist _ _
    exact (List.Pairwise.sublist hsub hp).imp (fun h => by simpa using h)
  cases hsql : w.sqlOk
  · refine ⟨[], ?_, ?_, ?_, ?_, ?_, ?_, ?_⟩
    · rw [hmain, hsql]
      simp
    · intro h
      exact absurd h (by simp)
    · intro _
      rfl
    · intro m hm
      exact absurd hm (List.not_mem_nil m)
    · simp
    · simp
    · intro _
      rfl
  · refine ⟨(sqlFallback table types query lim).map rowToMemory, ?_, ?_, ?_, ?_, ?_, ?_, ?_⟩
    · rw [hmain, hsql]
      simp
    · intro _
      rfl
    · intro h
      exact absurd h (by simp)
    · intro m hm
      obtain ⟨r, _, hr⟩ := List.mem_map.mp hm
      rw [← hr]
      rfl
    · rw [List.length_map]
      unfold sqlFallback
      rw [List.length_take]
      exact Nat.min_le_left _ _
    · rw [List.map_map, List.pairwise_map]
      exact hsorted
    · intro hnomatch
      have hfil : table.filter (fallbackMatches types query) = [] := by
        rw [List.filter_eq_nil_iff]
        intro r hr
        simp [hnomatch r hr]
      unfold sqlFallback
      rw [hfil]
      simp [insertionSortBy]

/-- Witness for C3: one stored episodic row matching the query textually is
returned through the fallback with its neutral relevance score. -/
theorem retrieveRelevantMemories_fallback_witness :
    retrieveRelevantMemories sampleWorld [sampleRow] "awareness" initialWorkingMemory
      [MType.episodic] 5 0 = Except.ok [rowToMemory sampleRow] := by
  obtain ⟨res, hres, hsql, _⟩ := retrieveRelevantMemories_fallback sampleWorld [sampleRow]
    "awareness" initialWorkingMemory [MType.episodic] 5 0 [1, 0, 0] rfl (by decide)
    (fun t => rfl)
  rw [hres, hsql rfl]
  rfl

/-- C1 (code evidence): with the orchestrator at depth 10 the loop pre-check
does trigger the new-question-thread reset, but startNewQuestionThread
assigns depth zero to the shallow copy returned by getCurrentState, so after
the reset the orchestrator's own DialogueState still has depth 10, not 0. -/
theorem depthPreCheck_reset_lost :
    (depthPreCheck (heapAtDepth 10) 0 0).2 = true ∧
    orchDepth (depthPreCheck (heapAtDepth 10) 0 0).1 0 = some 10 ∧
    orchDepth (depthPreCheck (heapAtDepth 10) 0 0).1 0 ≠ some 0 :=
  ⟨rfl, rfl, by decide⟩

/-- C2 counterexample: mutating the nested context of the DialogueState
returned by getCurrentState changes the orchestrator's internal state, so
the returned value is not a defensive copy of the nested objects. -/
theorem getCurrentState_shared_nested_context :
    orchTopic (heapAtDepth 3) 0 = some "the strange persistence of awareness" ∧
    orchTopic mutatedCopyHeap 0 = some "a mutated topic" ∧
    orchTopic mutatedCopyHeap 0 ≠ orchTopic (heapAtDepth 3) 0 :=
  ⟨rfl, rfl, by decide⟩

/-- C2 amended: getCurrentState returns a shallow copy: a fresh top-level
DialogueState object, so writing a top-level field of the returned object
(such as depth) leaves the orchestrator's state object unchanged, while the
nested context object is shared, so writing the topic through the returned
copy rewrites the very context object the orchestrator holds. -/
theorem getCurrentState_shallow_copy (h : Heap) (orchRef : Nat) (s : StateObj)
    (d : Nat) (topic : String)
    (hwf : ∀ r, h.nextRef ≤ r → h.states r = none)
    (hs : h.states orchRef = some s) :
    (getCurrentState h orchRef).2 ≠ orchRef ∧
    (getCurrentState h orchRef).1.states (getCurrentState h orchRef).2 = some s ∧
    (setDepthField (getCurrentState h orchRef).1 (getCurrentState h orchRef).2 d).states orchRef
      = some s ∧
    (setContextTopic (getCurrentState h orchRef).1 (getCurrentState h orchRef).2 topic).contexts
        s.contextRef
      = (h.contexts s.contextRef).map (fun w => { w with currentTopic := topic }) := by
  have hlt : orchRef < h.nextRef := by
    by_contra hge
    push_neg at hge
    rw [hwf orchRef hge] at hs
    exact Option.noConfusion hs
  have hne : h.nextRef ≠ orchRef := by omega
  have hne' : orchRef ≠ h.nextRef := by omega
  have hgc : getCurrentState h orchRef = h.allocState s := by
    unfold getCurrentState
    rw [hs]
  refine ⟨?_, ?_, ?_, ?_⟩
  · rw [hgc]
    exact hne
  · rw [hgc]
    simp [Heap.allocState]
  · rw [hgc]
    simp [Heap.allocState, setDepthField, Heap.writeState, hne', hs]
  · rw [hgc]
    cases hc : h.contexts s.contextRef with
    | none => simp [Heap.allocState, setContextTopic, hc]
    | some wm => simp [Heap.allocState, setContextTopic, hc]

/-- Witness for C2 amended: writing depth 42 on the copy taken from the
depth-3 heap leaves the orchestrator's state object at depth 3. -/
theorem getCurrentState_shallow_copy_witness :
    (setDepthField (getCurrentState (heapAtDepth 3) 0).1
      (getCurrentState (heapAtDepth 3) 0).2 42).states 0 = some (stateObjAtDepth 3) :=
  (getCurrentState_shallow_copy (heapAtDepth 3) 0 (stateObjAtDepth 3) 42 "any"
    (by
      intro r hr
      have h1 : (1 : Nat) ≤ r := hr
      have hr0 : ¬ r = 0 := by omega
      simp [heapAtDepth, hr0])
    rfl).2.2.1

end Greflect
